import Mathlib

/-!
Shallow embedding of `ijq` (`src/main.go`), an interactive terminal front end
for the `jq` command-line JSON processor built on the bubbletea event loop.

External collaborators (the `jq` subprocess, the textinput/viewport/help
widgets' own update and rendering functions) are modelled as oracle
parameters; everything the root controller does (`Update`, `newModel`,
`jqFilter`, `jq`, `getContent`, the final print in `main`) is translated
directly from the Go source.
-/

namespace Ijq

/-- Which standard stream a subprocess write goes to (`cmd.Stdout` / `cmd.Stderr`). -/
inductive StdStream where
  | out : StdStream
  | err : StdStream
deriving DecidableEq

/-- One run of the external engine subprocess: the sequence of writes it makes
(each tagged with the stream it targets, in temporal order) and its exit code. -/
structure EngineRun where
  writes : List (StdStream × String)
  exitCode : Int
deriving DecidableEq

/-- The external engine, abstracted: given the bytes piped to its stdin and its
query argument, it produces a run (writes plus exit code). -/
def Engine : Type := String → String → EngineRun

/-- Go `cmp.Or` specialised to strings: the first argument unless it is the
zero value `""`, else the second. -/
def cmpOr (a b : String) : String := if a = "" then b else a

/-- Go `strings.TrimSpace`: the string with leading and trailing whitespace
removed. -/
def trimSpace (s : String) : String :=
  String.mk (((s.data.dropWhile Char.isWhitespace).reverse.dropWhile
    Char.isWhitespace).reverse)

/-- The text accumulated in the single `strings.Builder` that serves as both
`cmd.Stdout` and `cmd.Stderr`: each write appends to the builder in order. -/
def runOutput (r : EngineRun) : String :=
  r.writes.foldl (fun acc w => acc ++ w.2) ""

/-- `jq(content, filter)` from `main.go`: runs the engine with
`cmp.Or(filter, ".")` as argument, `content` on stdin, both output streams
captured into one builder; the exit status of `cmd.Run()` is discarded. -/
def jq (engine : Engine) (content filter : String) : String :=
  runOutput (engine content (cmpOr filter "."))

/-- A key binding (`key.Binding`): trigger keys, help text, enabled flag. -/
structure Binding where
  keys : List String
  helpKey : String
  helpDesc : String
  enabled : Bool
deriving DecidableEq

/-- `key.NewBinding(key.WithKeys(...), key.WithHelp(...))`: enabled by default. -/
def newBinding (ks : List String) (hk hd : String) : Binding :=
  { keys := ks, helpKey := hk, helpDesc := hd, enabled := true }

/-- `key.Binding.SetEnabled`. -/
def Binding.setEnabled (b : Binding) (v : Bool) : Binding := { b with enabled := v }

/-- `keyMap` from `main.go`. -/
structure KeyMap where
  quit : Binding
  focusNextPane : Binding
  eval : Binding
deriving DecidableEq

/-- `defaultKeyMap()` from `main.go`. -/
def defaultKeyMap : KeyMap :=
  { quit := newBinding ["ctrl+c"] "ctrl+c" "quit"
    focusNextPane := newBinding ["tab"] "tab" "focus next pane"
    eval := newBinding ["enter"] "enter" "eval" }

/-- The fields of `textinput.Model` the root controller touches. -/
structure TextInput where
  value : String
  placeholder : String
  focused : Bool
  width : Int
deriving DecidableEq

/-- `textinput.New()`: empty value, not focused. -/
def textinputNew : TextInput :=
  { value := "", placeholder := "", focused := false, width := 0 }

/-- The fields of `viewport.Model` the root controller touches. -/
structure Viewport where
  width : Int
  height : Int
  content : String
  yOffset : Nat
  highPerformanceRendering : Bool
deriving DecidableEq

/-- `viewport.New(w, h)`: fresh viewport with empty content at the top. -/
def viewportNew (w h : Int) : Viewport :=
  { width := w, height := h, content := "", yOffset := 0
    highPerformanceRendering := false }

/-- `viewport.Model.SetContent`: replaces the content buffer; it does not
itself reset the scroll offset (that is the controller's job). -/
def Viewport.setContent (v : Viewport) (s : String) : Viewport :=
  { v with content := s }

/-- `viewport.Model.GotoTop`. -/
def Viewport.gotoTop (v : Viewport) : Viewport := { v with yOffset := 0 }

/-- The fields of `help.Model` the root controller touches. -/
structure HelpModel where
  width : Int
deriving DecidableEq

/-- `help.New()`. -/
def helpNew : HelpModel := { width := 0 }

/-- `model` from `main.go`. -/
structure Model where
  help : HelpModel
  content : String
  result : String
  viewport : Viewport
  keys : KeyMap
  textinput : TextInput
  ready : Bool
  focusViewport : Bool
deriving DecidableEq

/-- `newModel(content)` from `main.go`: a focused text input with the
"jq filter" placeholder, the initial identity evaluation as the result, and
Go zero values (`false`, empty viewport) for the remaining fields. -/
def newModel (engine : Engine) (content : String) : Model :=
  { content := content
    result := jq engine content "."
    keys := defaultKeyMap
    textinput := { textinputNew with focused := true, placeholder := "jq filter" }
    help := helpNew
    viewport := viewportNew 0 0
    ready := false
    focusViewport := false }

/-- `(m model) jqFilter()` from `main.go`: the trimmed input text, or `"."`
when the trimmed text is empty. -/
def jqFilter (m : Model) : String := cmpOr (trimSpace m.textinput.value) "."

/-- A terminal key event; the controller branches on `msg.String()`. -/
structure KeyMsg where
  str : String
deriving DecidableEq

/-- A bubbletea message as seen by `Update`: a window-size message, a key
message, or any other message (the `default` case of the type switch). -/
inductive Msg where
  | windowSize (width height : Int) : Msg
  | key (k : KeyMsg) : Msg
  | other (tag : Nat) : Msg
deriving DecidableEq

/-- A bubbletea command returned from `Update`: `tea.Quit` or some command
produced by a sub-widget. -/
inductive Cmd where
  | quit : Cmd
  | custom (tag : Nat) : Cmd
deriving DecidableEq

/-- The external widget operations `Update` delegates to, abstracted:
the rendered height of the text input (`lipgloss.Height(m.textinput.View())`),
the rendered height of the help overlay with its top margin
(`lipgloss.Height(_marginTop1.Render(m.help.View(m.keys)))`), and the two
sub-widget update functions for forwarded key events. -/
structure Oracles where
  tiViewHeight : TextInput → Int
  helpViewHeight : HelpModel → KeyMap → Int
  tiUpdate : TextInput → KeyMsg → TextInput × Option Cmd
  vpUpdate : Viewport → KeyMsg → Viewport × Option Cmd

/-- `(m model) Update(msg)` from `main.go`, translated case by case. -/
def update (engine : Engine) (o : Oracles) (m : Model) (msg : Msg) :
    Model × Option Cmd :=
  match msg with
  | .windowSize w h =>
      let inputHeight := o.tiViewHeight m.textinput
      let helpHeight := o.helpViewHeight m.help m.keys
      let margin := inputHeight + helpHeight
      let m1 :=
        if !m.ready then
          let vp := viewportNew w (h - margin)
          let vp := { vp with highPerformanceRendering := false }
          let vp := vp.setContent m.result
          { m with viewport := vp, ready := true }
        else
          { m with viewport := { m.viewport with width := w, height := h - margin } }
      ({ m1 with textinput := { m1.textinput with width := w },
                 help := { m1.help with width := w } }, none)
  | .key k =>
      if k.str = "ctrl+c" then
        (m, some .quit)
      else if k.str = "tab" then
        let m1 :=
          if !m.focusViewport then
            { m with textinput := { m.textinput with focused := false },
                     keys := { m.keys with eval := m.keys.eval.setEnabled false } }
          else
            { m with textinput := { m.textinput with focused := true },
                     keys := { m.keys with eval := m.keys.eval.setEnabled true } }
        ({ m1 with focusViewport := !m1.focusViewport }, none)
      else if k.str = "enter" then
        if !m.focusViewport then
          let out := jq engine m.content (jqFilter m)
          let m1 := { m with result := out }
          ({ m1 with viewport := (m1.viewport.setContent out).gotoTop }, none)
        else
          (m, none)
      else
        if !m.focusViewport then
          let r := o.tiUpdate m.textinput k
          ({ m with textinput := r.1 }, r.2)
        else
          let r := o.vpUpdate m.viewport k
          ({ m with viewport := r.1 }, r.2)
  | .other _ => (m, none)

/-- The submit key event (`enter`). -/
def enterMsg : Msg := .key { str := "enter" }

/-- The toggle-focus key event (`tab`). -/
def tabMsg : Msg := .key { str := "tab" }

/-- The model reached from startup after processing a list of messages. -/
def runSession (engine : Engine) (o : Oracles) (content : String)
    (msgs : List Msg) : Model :=
  msgs.foldl (fun m msg => (update engine o m msg).1) (newModel engine content)

/-- Whether processing `msg` in state `m` triggers an evaluation: a submit key
while the input field holds focus. -/
def evalHappens (m : Model) (msg : Msg) : Bool :=
  match msg with
  | .key k => k.str = "enter" && !m.focusViewport
  | _ => false

/-- Spec companion for the `lastResult` invariant: tracks, alongside the model,
"the output of the most recently completed evaluation" — initialised with the
startup identity evaluation and replaced exactly when a submit event triggers
an evaluation. -/
def evalTrack (engine : Engine) (o : Oracles) (p : Model × String)
    (msg : Msg) : Model × String :=
  ((update engine o p.1 msg).1,
   if evalHappens p.1 msg then jq engine p.1.content (jqFilter p.1) else p.2)

/-- The output of the most recently completed evaluation after a message
trace, per the spec's description. -/
def lastEval (engine : Engine) (o : Oracles) (content : String)
    (msgs : List Msg) : String :=
  (msgs.foldl (evalTrack engine o) (newModel engine content, jq engine content ".")).2

/-- `fmt.Println(m.jqFilter())` at the end of `main`: the line written to
standard output on normal quit. -/
def mainPrintln (m : Model) : String := jqFilter m ++ "\n"

/-- An abstract file system: maps a file name to its full contents, or to the
error produced while opening or reading it. -/
def FS : Type := String → Except String String

/-- The loop body of `getContent` over `flag.Args()`: read each file in order
into the shared builder, stopping at the first error; an error discards the
partial builder contents. -/
def getContentLoop (fs : FS) : List String → String → Except String String
  | [], acc => .ok acc
  | name :: rest, acc =>
      match fs name with
      | .ok c => getContentLoop fs rest (acc ++ c)
      | .error e => .error e

/-- `getContent()` from `main.go`: with no file arguments the document is read
from standard input (itself a fallible read, abstracted as `stdinRead`);
otherwise the files are concatenated in argument order. -/
def getContent (fs : FS) (stdinRead : Except String String)
    (args : List String) : Except String String :=
  if args.isEmpty then stdinRead else getContentLoop fs args ""

/-- Spec-side companion for the executor contract: all text the engine wrote,
to either stream, in order ("both its normal output and its diagnostic
output, concatenated"). -/
def writtenText (r : EngineRun) : String :=
  r.writes.foldr (fun w acc => w.2 ++ acc) ""

/-- Spec-side companion for document loading: direct concatenation of a list
of file contents, in order. -/
def concatAll (l : List String) : String := l.foldr (fun s r => s ++ r) ""

/-- A concrete engine used to instantiate universally quantified theorems. -/
def constEngine : Engine := fun _ _ => { writes := [(.out, "x")], exitCode := 0 }

/-- A concrete engine with a chosen exit code and write list. -/
def mkEngine (ws : List (StdStream × String)) (n : Int) : Engine :=
  fun _ _ => { writes := ws, exitCode := n }

/-- Concrete widget oracles used to instantiate universally quantified
theorems. -/
def trivialOracles : Oracles :=
  { tiViewHeight := fun _ => 1
    helpViewHeight := fun _ _ => 2
    tiUpdate := fun ti _ => (ti, none)
    vpUpdate := fun vp _ => (vp, none) }

lemma cmpOr_ne_empty {a : String} (b : String) (h : a ≠ "") : cmpOr a b = a :=
  if_neg h

lemma jqFilter_ne_empty (m : Model) : jqFilter m ≠ "" := by
  unfold jqFilter cmpOr
  split
  · intro hc
    exact absurd hc (by decide)
  · assumption

lemma cmpOr_jqFilter (m : Model) : cmpOr (jqFilter m) "." = jqFilter m :=
  cmpOr_ne_empty _ (jqFilter_ne_empty m)

lemma foldl_append_writes (l : List (StdStream × String)) :
    ∀ acc : String,
      l.foldl (fun a w => a ++ w.2) acc = acc ++ l.foldr (fun w acc => w.2 ++ acc) "" := by
  induction l with
  | nil => intro acc; simp
  | cons w rest ih =>
      intro acc
      rw [List.foldl_cons, List.foldr_cons, ih, String.append_assoc]

lemma runOutput_eq_writtenText (r : EngineRun) : runOutput r = writtenText r := by
  unfold runOutput writtenText
  rw [foldl_append_writes]
  simp

lemma update_content (engine : Engine) (o : Oracles) (m : Model) (msg : Msg) :
    (update engine o m msg).1.content = m.content := by
  cases msg with
  | windowSize w h =>
      by_cases hr : m.ready <;> simp [update, hr]
  | key k =>
      by_cases h1 : k.str = "ctrl+c"
      · simp [update, h1]
      · by_cases h2 : k.str = "tab"
        · by_cases hf : m.focusViewport <;> simp [update, h1, h2, hf]
        · by_cases h3 : k.str = "enter"
          · by_cases hf : m.focusViewport <;> simp [update, h1, h2, h3, hf]
          · by_cases hf : m.focusViewport <;> simp [update, h1, h2, h3, hf]
  | other t => rfl

lemma update_result (engine : Engine) (o : Oracles) (m : Model) (msg : Msg) :
    (update engine o m msg).1.result =
      (if evalHappens m msg then jq engine m.content (jqFilter m) else m.result) := by
  cases msg with
  | windowSize w h =>
      by_cases hr : m.ready <;> simp [update, evalHappens, hr]
  | key k =>
      by_cases h1 : k.str = "ctrl+c"
      · simp [update, evalHappens, h1]
      · by_cases h2 : k.str = "tab"
        · by_cases hf : m.focusViewport <;> simp [update, evalHappens, h1, h2, hf]
        · by_cases h3 : k.str = "enter"
          · by_cases hf : m.focusViewport <;>
              simp [update, evalHappens, h1, h2, h3, hf]
          · by_cases hf : m.focusViewport <;>
              simp [update, evalHappens, h1, h2, h3, hf]
  | other t => simp [update, evalHappens]

lemma update_ready_mono (engine : Engine) (o : Oracles) (m : Model) (msg : Msg)
    (h : m.ready = true) : (update engine o m msg).1.ready = true := by
  cases msg with
  | windowSize w h' => simp [update, h]
  | key k =>
      by_cases h1 : k.str = "ctrl+c"
      · simpa [update, h1] using h
      · by_cases h2 : k.str = "tab"
        · by_cases hf : m.focusViewport <;> simpa [update, h1, h2, hf] using h
        · by_cases h3 : k.str = "enter"
          · by_cases hf : m.focusViewport <;>
              simpa [update, h1, h2, h3, hf] using h
          · by_cases hf : m.focusViewport <;>
              simpa [update, h1, h2, h3, hf] using h
  | other t => simpa [update] using h

lemma foldl_evalTrack_fst (engine : Engine) (o : Oracles) :
    ∀ (msgs : List Msg) (p : Model × String),
      (msgs.foldl (evalTrack engine o) p).1 =
        msgs.foldl (fun m msg => (update engine o m msg).1) p.1 := by
  intro msgs
  induction msgs with
  | nil => intro p; rfl
  | cons msg rest ih =>
      intro p
      rw [List.foldl_cons, List.foldl_cons, ih]
      rfl

lemma foldl_evalTrack_result (engine : Engine) (o : Oracles) :
    ∀ (msgs : List Msg) (p : Model × String), p.1.result = p.2 →
      (msgs.foldl (evalTrack engine o) p).1.result =
        (msgs.foldl (evalTrack engine o) p).2 := by
  intro msgs
  induction msgs with
  | nil => intro p h; exact h
  | cons msg rest ih =>
      intro p h
      rw [List.foldl_cons]
      apply ih
      show (update engine o p.1 msg).1.result =
        (if evalHappens p.1 msg then jq engine p.1.content (jqFilter p.1) else p.2)
      rw [update_result, h]

lemma foldl_update_content (engine : Engine) (o : Oracles) :
    ∀ (msgs : List Msg) (m : Model),
      (msgs.foldl (fun m msg => (update engine o m msg).1) m).content = m.content := by
  intro msgs
  induction msgs with
  | nil => intro m; rfl
  | cons msg rest ih =>
      intro m
      rw [List.foldl_cons, ih, update_content]

lemma update_tab (engine : Engine) (o : Oracles) (m : Model) :
    (update engine o m tabMsg).1.focusViewport = !m.focusViewport ∧
    (update engine o m tabMsg).1.textinput.focused = m.focusViewport ∧
    (update engine o m tabMsg).1.keys.eval.enabled = m.focusViewport := by
  by_cases hf : m.focusViewport <;>
    simp [update, tabMsg, Binding.setEnabled, hf]

lemma foldl_replicate_succ (f : Model → Msg → Model) (n : Nat) (b : Model)
    (msg : Msg) :
    (List.replicate (n+1) msg).foldl f b = (List.replicate n msg).foldl f (f b msg) := by
  rw [List.replicate_succ, List.foldl_cons]

lemma tabs_focus (engine : Engine) (o : Oracles) :
    ∀ (n : Nat) (m : Model),
      ((List.replicate n tabMsg).foldl
          (fun m msg => (update engine o m msg).1) m).focusViewport =
        (m.focusViewport ^^ decide (n % 2 = 1)) := by
  intro n
  induction n with
  | zero => intro m; simp
  | succ k ih =>
      intro m
      rw [foldl_replicate_succ]
      rw [ih, (update_tab engine o m).1]
      rcases Nat.mod_two_eq_zero_or_one k with hk | hk
      · have h1 : (k+1) % 2 = 1 := by omega
        simp [hk, h1]
      · have h1 : (k+1) % 2 = 0 := by omega
        simp [hk, h1]

lemma tabs_inv (engine : Engine) (o : Oracles) :
    ∀ (n : Nat) (m : Model),
      m.textinput.focused = !m.focusViewport →
      m.keys.eval.enabled = !m.focusViewport →
      (((List.replicate n tabMsg).foldl
          (fun m msg => (update engine o m msg).1) m).textinput.focused =
        !((List.replicate n tabMsg).foldl
          (fun m msg => (update engine o m msg).1) m).focusViewport ∧
       ((List.replicate n tabMsg).foldl
          (fun m msg => (update engine o m msg).1) m).keys.eval.enabled =
        !((List.replicate n tabMsg).foldl
          (fun m msg => (update engine o m msg).1) m).focusViewport) := by
  intro n
  induction n with
  | zero => intro m h1 h2; exact ⟨h1, h2⟩
  | succ k ih =>
      intro m h1 h2
      rw [foldl_replicate_succ]
      apply ih
      · rw [(update_tab engine o m).2.1, (update_tab engine o m).1, Bool.not_not]
      · rw [(update_tab engine o m).2.2, (update_tab engine o m).1, Bool.not_not]

lemma not_decide_odd (n : Nat) : (!decide (n % 2 = 1)) = decide (n % 2 = 0) := by
  rcases Nat.mod_two_eq_zero_or_one n with hk | hk <;> simp [hk]

/-- Claim C10: for every model and every message that is neither a resize
event nor a key event, `update` returns the model completely unchanged and
produces no command. -/
theorem claim_other_msgs_noop (engine : Engine) (o : Oracles) (m : Model)
    (t : Nat) : update engine o m (.other t) = (m, none) := rfl

/-- Claim C4: for every model in the ViewportFocused state, processing a
submit event is a no-op: the model is returned unchanged (no evaluation, no
content or scroll change, no other field touched) and no command is issued. -/
theorem claim_submit_noop_when_viewport_focused (engine : Engine) (o : Oracles)
    (m : Model) (h : m.focusViewport = true) :
    update engine o m enterMsg = (m, none) := by
  simp [update, enterMsg, h]

/-- Concrete model with the viewport focused, for the C4 witness. -/
def mViewportFocused : Model :=
  { newModel constEngine "doc" with focusViewport := true }

/-- Witness for C4 at a concrete viewport-focused model. -/
theorem claim_submit_noop_when_viewport_focused_witness :
    update constEngine trivialOracles mViewportFocused enterMsg =
      (mViewportFocused, none) :=
  claim_submit_noop_when_viewport_focused constEngine trivialOracles
    mViewportFocused rfl

/-- Claim C2: with an empty or whitespace-only input field the effective
expression is the identity `"."`, so evaluation agrees with evaluating the
identity expression; in general the effective expression is the trimmed input
text, or `"."` when the trimmed text is empty. -/
theorem claim_empty_filter_is_identity (engine : Engine) (d : String)
    (m : Model) (h : trimSpace m.textinput.value = "") :
    jqFilter m = "." ∧
    jq engine d (jqFilter m) = jq engine d "." ∧
    ∀ m' : Model,
      jqFilter m' =
        if trimSpace m'.textinput.value = "" then "."
        else trimSpace m'.textinput.value := by
  have h1 : jqFilter m = "." := by
    unfold jqFilter
    rw [h]
    rfl
  exact ⟨h1, by rw [h1], fun m' => rfl⟩

/-- Concrete model whose input field holds only whitespace, for the C2
witness. -/
def mWhitespace : Model :=
  { newModel constEngine "doc" with
      textinput := { textinputNew with value := "   ", focused := true } }

/-- Witness for C2 at a concrete whitespace-only input field. -/
theorem claim_empty_filter_is_identity_witness :
    jqFilter mWhitespace = "." ∧
    jq constEngine "doc" (jqFilter mWhitespace) = jq constEngine "doc" "." := by
  obtain ⟨h1, h2, h3⟩ :=
    claim_empty_filter_is_identity constEngine "doc" mWhitespace (by decide)
  exact ⟨h1, h2⟩

/-- Claim C6: on normal quit the program writes the final effective query
expression followed by a newline to standard output — the trimmed input text,
or `"."` when that is empty; with input text `"  .a  "` it writes `".a"`. -/
theorem claim_quit_prints_effective_filter (m : Model)
    (h : m.textinput.value = "  .a  ") :
    mainPrintln m = ".a\n" ∧
    ∀ m' : Model,
      mainPrintln m' = cmpOr (trimSpace m'.textinput.value) "." ++ "\n" := by
  constructor
  · unfold mainPrintln jqFilter
    rw [h]
    decide
  · intro m'
    rfl

/-- Concrete model whose input field holds `"  .a  "`, for the C6 witness. -/
def mQuit : Model :=
  { newModel constEngine "doc" with
      textinput := { textinputNew with value := "  .a  ", focused := true } }

/-- Witness for C6 at a concrete input field. -/
theorem claim_quit_prints_effective_filter_witness :
    mainPrintln mQuit = ".a\n" :=
  (claim_quit_prints_effective_filter mQuit rfl).1

/-- Claim C3: the executor's result is exactly the text the engine wrote to
its two output streams, combined in write order, and the result does not
depend on the engine's exit status (two engines with the same writes but any
exit codes yield the same result); no error value is ever produced. -/
theorem claim_jq_combines_streams_ignores_exit (e1 e2 : Engine) (d f : String)
    (h : (e1 d (cmpOr f ".")).writes = (e2 d (cmpOr f ".")).writes) :
    jq e1 d f = jq e2 d f ∧
    jq e1 d f = writtenText (e1 d (cmpOr f ".")) := by
  constructor
  · unfold jq runOutput
    rw [h]
  · exact runOutput_eq_writtenText _

/-- Witness for C3: two concrete engines with identical writes to both
streams but different exit codes. -/
theorem claim_jq_combines_streams_ignores_exit_witness :
    jq (mkEngine [(.out, "a"), (.err, "b")] 0) "doc" ".x" =
      jq (mkEngine [(.out, "a"), (.err, "b")] 5) "doc" ".x" ∧
    jq (mkEngine [(.out, "a"), (.err, "b")] 0) "doc" ".x" =
      writtenText (mkEngine [(.out, "a"), (.err, "b")] 0 "doc" (cmpOr ".x" ".")) :=
  claim_jq_combines_streams_ignores_exit
    (mkEngine [(.out, "a"), (.err, "b")] 0)
    (mkEngine [(.out, "a"), (.err, "b")] 5) "doc" ".x" rfl

/-- Claim C1: with the input field focused, a submit event invokes the
executor with the original document and the effective expression, stores the
output as the result, pushes it into the viewport, and resets the scroll
offset to the top, leaving every other field unchanged and issuing no command;
moreover the step depends on the engine only through its value at
`(document, effective expression)`. -/
theorem claim_submit_evaluates_and_resets_scroll (engine : Engine)
    (o : Oracles) (m : Model) (h : m.focusViewport = false) :
    update engine o m enterMsg =
      ({ m with
          result := jq engine m.content (jqFilter m)
          viewport := { m.viewport with
            content := jq engine m.content (jqFilter m), yOffset := 0 } }, none) ∧
    ∀ engine' : Engine,
      engine' m.content (jqFilter m) = engine m.content (jqFilter m) →
      update engine' o m enterMsg = update engine o m enterMsg := by
  have hcompute : ∀ e : Engine, update e o m enterMsg =
      ({ m with
          result := jq e m.content (jqFilter m)
          viewport := { m.viewport with
            content := jq e m.content (jqFilter m), yOffset := 0 } }, none) := by
    intro e
    simp [update, enterMsg, h, Viewport.setContent, Viewport.gotoTop]
  refine ⟨hcompute engine, fun engine' he => ?_⟩
  have hjq : jq engine' m.content (jqFilter m) = jq engine m.content (jqFilter m) := by
    unfold jq
    rw [cmpOr_jqFilter, he]
  rw [hcompute engine', hcompute engine, hjq]

/-- Concrete input-focused model for the C1 witness. -/
def mSubmit : Model :=
  { newModel constEngine "doc" with
      textinput := { textinputNew with value := " .x ", focused := true } }

/-- Witness for C1 at a concrete input-focused model. -/
theorem claim_submit_evaluates_and_resets_scroll_witness :
    update constEngine trivialOracles mSubmit enterMsg =
      ({ mSubmit with
          result := jq constEngine mSubmit.content (jqFilter mSubmit)
          viewport := { mSubmit.viewport with
            content := jq constEngine mSubmit.content (jqFilter mSubmit)
            yOffset := 0 } }, none) :=
  (claim_submit_evaluates_and_resets_scroll constEngine trivialOracles
    mSubmit rfl).1

/-- Claim C5: the first resize event turns `ready` from false to true and
initializes the viewport with the current result at the top and the computed
dimensions; once `ready` is true it stays true under every message, and a
resize then preserves the viewport's content and scroll offset, updating
only its width and height; a fresh model starts with `ready` false. -/
theorem claim_first_resize_initializes (engine : Engine) (o : Oracles)
    (m : Model) (w h : Int) :
    (m.ready = false →
      (update engine o m (.windowSize w h)).1.ready = true ∧
      (update engine o m (.windowSize w h)).1.viewport =
        { width := w
          height := h - (o.tiViewHeight m.textinput + o.helpViewHeight m.help m.keys)
          content := m.result
          yOffset := 0
          highPerformanceRendering := false }) ∧
    (m.ready = true →
      (update engine o m (.windowSize w h)).1.ready = true ∧
      (update engine o m (.windowSize w h)).1.viewport =
        { m.viewport with
          width := w
          height := h - (o.tiViewHeight m.textinput + o.helpViewHeight m.help m.keys) }) ∧
    (∀ msg : Msg, m.ready = true → (update engine o m msg).1.ready = true) ∧
    (∀ c : String, (newModel engine c).ready = false) := by
  refine ⟨fun hr => ?_, fun hr => ?_,
    fun msg hr => update_ready_mono engine o m msg hr, fun c => rfl⟩
  · constructor <;> simp [update, hr, viewportNew, Viewport.setContent]
  · constructor <;> simp [update, hr]

/-- Concrete model with `ready` already true and a scrolled viewport, for the
C5 witness. -/
def mReady : Model :=
  { newModel constEngine "doc" with
      ready := true
      viewport :=
        { width := 3, height := 4, content := "c", yOffset := 7
          highPerformanceRendering := false } }

/-- Witness for C5: a first resize on a fresh model sets `ready`, and a
resize on a ready model keeps content and scroll offset. -/
theorem claim_first_resize_initializes_witness :
    ((update constEngine trivialOracles (newModel constEngine "doc")
        (.windowSize 80 24)).1.ready = true ∧
      (update constEngine trivialOracles (newModel constEngine "doc")
        (.windowSize 80 24)).1.viewport =
        { width := 80
          height := 24 - (trivialOracles.tiViewHeight (newModel constEngine "doc").textinput +
            trivialOracles.helpViewHeight (newModel constEngine "doc").help
              (newModel constEngine "doc").keys)
          content := (newModel constEngine "doc").result
          yOffset := 0
          highPerformanceRendering := false }) ∧
    (update constEngine trivialOracles mReady (.windowSize 80 24)).1.viewport =
      { mReady.viewport with
        width := 80
        height := 24 - (trivialOracles.tiViewHeight mReady.textinput +
          trivialOracles.helpViewHeight mReady.help mReady.keys) } := by
  refine ⟨(claim_first_resize_initializes constEngine trivialOracles
      (newModel constEngine "doc") 80 24).1 rfl, ?_⟩
  exact ((claim_first_resize_initializes constEngine trivialOracles
    mReady 80 24).2.1 rfl).2

/-- Spec-side companion for document loading: read every listed file, in
order, into a list of contents, propagating the first read error. -/
def readAll (fs : FS) : List String → Except String (List String)
  | [] => .ok []
  | name :: rest =>
      match fs name with
      | .ok c => (readAll fs rest).map (fun cs => c :: cs)
      | .error e => .error e

lemma getContentLoop_eq (fs : FS) :
    ∀ (args : List String) (acc : String),
      getContentLoop fs args acc =
        (readAll fs args).map (fun cs => acc ++ concatAll cs) := by
  intro args
  induction args with
  | nil =>
      intro acc
      simp [getContentLoop, readAll, concatAll, Except.map, String.append_empty]
  | cons name rest ih =>
      intro acc
      cases hf : fs name with
      | error e =>
          simp [getContentLoop, readAll, hf, Except.map]
      | ok c =>
          rw [getContentLoop.eq_def]
          simp only [hf, ih (acc ++ c), readAll]
          cases hm : readAll fs rest with
          | error e2 => simp [hm, Except.map]
          | ok cs => simp [hm, Except.map, concatAll, String.append_assoc]

lemma getContentLoop_error (fs : FS) :
    ∀ (args : List String) (acc a e : String), a ∈ args → fs a = .error e →
      ∃ e', getContentLoop fs args acc = .error e' := by
  intro args
  induction args with
  | nil =>
      intro acc a e ha
      exact absurd ha (List.not_mem_nil a)
  | cons name rest ih =>
      intro acc a e ha hfa
      cases hf : fs name with
      | error e2 =>
          exact ⟨e2, by simp [getContentLoop, hf]⟩
      | ok c =>
          rcases List.mem_cons.mp ha with rfl | hmem
          · rw [hfa] at hf
            cases hf
          · obtain ⟨e', he'⟩ := ih (acc ++ c) a e hmem hfa
            exact ⟨e', by simp [getContentLoop, hf, he']⟩

/-- Claim C7: with no file arguments the document is the standard-input read;
with file arguments it is the concatenation of the files' contents in
argument order (`readAll` followed by direct concatenation), so an error on
any file propagates with no partial document; and any listed file that fails
to read makes loading return an error. -/
theorem claim_getContent_concats_files (fs : FS)
    (stdinRead : Except String String) (args : List String) (h : args ≠ []) :
    getContent fs stdinRead args = (readAll fs args).map concatAll ∧
    getContent fs stdinRead [] = stdinRead ∧
    (∀ a ∈ args, ∀ e, fs a = .error e →
      ∃ e', getContent fs stdinRead args = .error e') := by
  have hne : args.isEmpty = false := by
    cases args with
    | nil => exact absurd rfl h
    | cons x xs => rfl
  refine ⟨?_, rfl, ?_⟩
  · unfold getContent
    rw [hne]
    simp only [Bool.false_eq_true, if_false]
    rw [getContentLoop_eq]
    cases hm : readAll fs args with
    | error e => simp [hm, Except.map]
    | ok cs => simp [hm, Except.map, String.empty_append]
  · intro a ha e hfa
    unfold getContent
    rw [hne]
    simp only [Bool.false_eq_true, if_false]
    exact getContentLoop_error fs args "" a e ha hfa

/-- Concrete file system for the C7 witness: file `a` reads fine, file `b`
fails. -/
def fsW : FS := fun n =>
  if n = "a" then .ok "A" else if n = "b" then .error "boom" else .ok ""

/-- Witness for C7: loading the single file `a` concatenates its contents. -/
theorem claim_getContent_concats_files_witness :
    getContent fsW (.ok "S") ["a"] = (readAll fsW ["a"]).map concatAll ∧
    getContent fsW (.ok "S") ["a"] = .ok "A" := by
  have h := (claim_getContent_concats_files fsW (.ok "S") ["a"]
    (by decide)).1
  exact ⟨h, h.trans rfl⟩

lemma runSession_tabs_inv (engine : Engine) (o : Oracles) (content : String)
    (n : Nat) :
    ((runSession engine o content (List.replicate n tabMsg)).textinput.focused =
      !(runSession engine o content (List.replicate n tabMsg)).focusViewport ∧
     (runSession engine o content (List.replicate n tabMsg)).keys.eval.enabled =
      !(runSession engine o content (List.replicate n tabMsg)).focusViewport) :=
  tabs_inv engine o n (newModel engine content) rfl rfl

lemma runSession_tabs_focus (engine : Engine) (o : Oracles) (content : String)
    (n : Nat) :
    (runSession engine o content (List.replicate n tabMsg)).focusViewport =
      decide (n % 2 = 1) := by
  unfold runSession
  rw [tabs_focus]
  show (false ^^ decide (n % 2 = 1)) = decide (n % 2 = 1)
  simp

/-- Claim C8: from the initial InputFocused state, `n` toggle-focus events
leave the viewport focused exactly when `n` is odd; and each single toggle
leaving InputFocused blurs the input field and disables the submit binding,
while each toggle entering InputFocused re-focuses the field and re-enables
the binding. -/
theorem claim_toggle_focus_alternates (engine : Engine) (o : Oracles)
    (content : String) (n : Nat) :
    ((runSession engine o content (List.replicate n tabMsg)).focusViewport = true ↔
      n % 2 = 1) ∧
    ((runSession engine o content (List.replicate n tabMsg)).textinput.focused = true ↔
      n % 2 = 0) ∧
    ((runSession engine o content (List.replicate n tabMsg)).keys.eval.enabled = true ↔
      n % 2 = 0) ∧
    (∀ m : Model, m.focusViewport = false →
      (update engine o m tabMsg).1.focusViewport = true ∧
      (update engine o m tabMsg).1.textinput.focused = false ∧
      (update engine o m tabMsg).1.keys.eval.enabled = false) ∧
    (∀ m : Model, m.focusViewport = true →
      (update engine o m tabMsg).1.focusViewport = false ∧
      (update engine o m tabMsg).1.textinput.focused = true ∧
      (update engine o m tabMsg).1.keys.eval.enabled = true) := by
  have hfv := runSession_tabs_focus engine o content n
  have hinv := runSession_tabs_inv engine o content n
  refine ⟨?_, ?_, ?_, fun m hm => ?_, fun m hm => ?_⟩
  · rw [hfv]
    simp
  · rw [hinv.1, hfv, not_decide_odd]
    simp
  · rw [hinv.2, hfv, not_decide_odd]
    simp
  · refine ⟨?_, ?_, ?_⟩
    · rw [(update_tab engine o m).1, hm]
      rfl
    · rw [(update_tab engine o m).2.1, hm]
    · rw [(update_tab engine o m).2.2, hm]
  · refine ⟨?_, ?_, ?_⟩
    · rw [(update_tab engine o m).1, hm]
      rfl
    · rw [(update_tab engine o m).2.1, hm]
    · rw [(update_tab engine o m).2.2, hm]

/-- Witness for C8: three toggles from startup end viewport-focused, and one
toggle from the fresh (input-focused) model focuses the viewport, blurs the
input field and disables the submit binding. -/
theorem claim_toggle_focus_alternates_witness :
    (runSession constEngine trivialOracles "doc"
      (List.replicate 3 tabMsg)).focusViewport = true ∧
    (update constEngine trivialOracles (newModel constEngine "doc")
      tabMsg).1.focusViewport = true ∧
    (update constEngine trivialOracles (newModel constEngine "doc")
      tabMsg).1.textinput.focused = false ∧
    (update constEngine trivialOracles (newModel constEngine "doc")
      tabMsg).1.keys.eval.enabled = false := by
  obtain ⟨h1, h2, h3, h4, h5⟩ :=
    claim_toggle_focus_alternates constEngine trivialOracles "doc" 3
  obtain ⟨h6, h7, h8⟩ := h4 (newModel constEngine "doc") rfl
  exact ⟨h1.mpr (by decide), h6, h7, h8⟩

/-- Claim C9: over every message trace from startup, the document field never
changes, and the result field always equals the output of the most recently
completed evaluation (the startup identity evaluation, or the latest
submit-triggered one), as tracked by `lastEval`. -/
theorem claim_document_immutable_result_is_last_eval (engine : Engine)
    (o : Oracles) (content : String) (msgs : List Msg) :
    (runSession engine o content msgs).content = content ∧
    (runSession engine o content msgs).result = lastEval engine o content msgs := by
  constructor
  · unfold runSession
    rw [foldl_update_content]
    rfl
  · unfold runSession lastEval
    have hfst := foldl_evalTrack_fst engine o msgs
      (newModel engine content, jq engine content ".")
    rw [← hfst]
    exact foldl_evalTrack_result engine o msgs _ rfl

end Ijq
